import Mathlib

/-
Shallow embedding of the bill-calculator core:
  - `Bill` (docs/components/Bill.js)
  - `ApiService` (docs/components/ApiService.js), the simulated persistence layer
  - `BillManager` (docs/components/BillManager.js), the state container with
    CRUD, filter/sort and totals.
JavaScript numbers that can arise here are finite decimals, infinities or NaN,
modelled as `JsNum` over the rationals; JSON (de)serialisation of the snapshot is abstracted
as the identity on plain records; the asynchronous delay is dropped (every
operation is atomic, as the single-threaded UI awaits each call to completion).
-/

namespace BillCalc

/-- A JavaScript number as it occurs in this program: a finite (rational)
value, an infinity (`inf true` is +Infinity, `inf false` is -Infinity), or
NaN. `parseFloat` can produce all three kinds: a finite value, Infinity (on
inputs such as "Infinity" or the overflowing "1e999"), or NaN. -/
inductive JsNum where
  | num (q : ℚ)
  | inf (pos : Bool)
  | nan
deriving DecidableEq

/-- Whether a JS number is finite (`Number.isFinite`); neither NaN nor the
infinities are. -/
def JsNum.isFinite : JsNum → Bool
  | .num _ => true
  | .inf _ => false
  | .nan => false

/-- JS `+` on numbers: NaN is absorbing, an infinity absorbs finite values,
and opposite infinities give NaN. -/
def jsAdd : JsNum → JsNum → JsNum
  | .nan, _ => .nan
  | _, .nan => .nan
  | .num a, .num b => .num (a + b)
  | .num _, .inf s => .inf s
  | .inf s, .num _ => .inf s
  | .inf s, .inf t => if s = t then .inf s else .nan

/-- JS `-` on numbers: NaN is absorbing, an infinity absorbs finite values,
and subtracting an infinity from itself gives NaN. -/
def jsSub : JsNum → JsNum → JsNum
  | .nan, _ => .nan
  | _, .nan => .nan
  | .num a, .num b => .num (a - b)
  | .num _, .inf s => .inf (!s)
  | .inf s, .num _ => .inf s
  | .inf s, .inf t => if s = t then .nan else .inf s

/-- JS `x || 0` on a number: NaN (falsy) falls back to 0; `0 || 0` is 0, so
this is the identity on finite values, and the infinities are truthy, so
they pass through untouched. -/
def jsOrZero : JsNum → JsNum
  | .nan => .num 0
  | .num q => .num q
  | .inf s => .inf s

/-- JS `s || d` on a string: the empty string is falsy. -/
def jsOrStr (s d : String) : String :=
  if s = "" then d else s

/-- JS `v || d` where `v` may be `undefined` (modelled as `none`): both
`undefined` and the empty string are falsy. -/
def jsOrOptStr (v : Option String) (d : String) : String :=
  match v with
  | some s => jsOrStr s d
  | none => d

/-- The raw `amount` argument reaching `parseFloat` (a form-field string or a
number), abstracted by the parse outcome: a finite value, an infinity (for
inputs such as "Infinity", "-Infinity" or "1e999"), or non-numeric input on
which `parseFloat` returns NaN. -/
inductive AmountInput where
  | valid (q : ℚ)
  | infinite (pos : Bool)
  | invalid
deriving DecidableEq

/-- `parseFloat` on the abstracted input. -/
def parseFloat : AmountInput → JsNum
  | .valid q => .num q
  | .infinite s => .inf s
  | .invalid => .nan

/-- `parseFloat` applied to a value that is already a JS number (it parses
the decimal string of a finite value back to itself, "Infinity" back to
Infinity, and "NaN" back to NaN). -/
def jsNumInput : JsNum → AmountInput
  | .num q => .valid q
  | .inf s => .infinite s
  | .nan => .invalid

/-- The nested `amount` object of a bill: `{ value, currency }`. -/
structure Amount where
  value : JsNum
  currency : String
deriving DecidableEq

/-- One bill record (class `Bill`). `name` is `undefined` (`none`) when the
form supplied no display name. -/
structure Bill where
  id : String
  type : String
  name : Option String
  paymentMethod : String
  status : String
  amount : Amount
deriving DecidableEq

/-- The argument object of the `Bill` constructor; `none` models a missing
(`undefined`) property. -/
structure BillInput where
  id : Option String
  type : String
  name : Option String
  paymentMethod : String
  amount : AmountInput
  currency : Option String
  status : Option String
deriving DecidableEq

/-- `new Bill({id, type, name, paymentMethod, amount, currency, status})`
from Bill.js. `genId` stands for the freshly generated
`Date.now().toString()` used when `id` is falsy. -/
def Bill.make (inp : BillInput) (genId : String) : Bill :=
  { id := jsOrOptStr inp.id genId
    type := inp.type
    name := inp.name
    paymentMethod := inp.paymentMethod
    status := jsOrOptStr inp.status "Pending"
    amount :=
      { value := jsOrZero (parseFloat inp.amount)
        currency := jsOrOptStr inp.currency "EUR" } }

/-- A plain (deserialised JSON) record as read from or written to the
persisted snapshot; any property may be absent. -/
structure PlainBill where
  id : Option String
  type : String
  name : Option String
  paymentMethod : String
  status : Option String
  amount : Option Amount
deriving DecidableEq

/-- The persistence simulator (class `ApiService`): the parsed content of the
localStorage slot (`none` when the key is absent) and the forced-failure
flag `_shouldFail`. -/
structure ApiService where
  stored : Option (List PlainBill)
  shouldFail : Bool
deriving DecidableEq

/-- `ApiService.fetchBills`: resolves with the persisted snapshot, or `[]`
when none exists; never fails. -/
def fetchBills (api : ApiService) : List PlainBill :=
  api.stored.getD []

/-- `ApiService.saveBills(billsData)`: when `_shouldFail` is set, rejects
without touching the stored snapshot; otherwise replaces the snapshot with
the given data and resolves. The pair carries the service state after the
call and the promise outcome. -/
def saveBills (api : ApiService) (billsData : List PlainBill) :
    ApiService × Except String Unit :=
  if api.shouldFail then
    (api, Except.error "Simulated Network Error during save!")
  else
    ({ api with stored := some billsData }, Except.ok ())

/-- `ApiService.toggleFailure(state = !this._shouldFail)`. -/
def toggleFailure (api : ApiService) (state : Option Bool) : ApiService :=
  { api with shouldFail := state.getD (!api.shouldFail) }

/-- The state container (class `BillManager`): the owned `ApiService`, the
bill collection, and the view state `currentFilter` / `currentSort`. -/
structure BillManager where
  apiService : ApiService
  bills : List Bill
  currentFilter : String
  currentSort : String
deriving DecidableEq

/-- `new BillManager()` over a pre-existing persistence medium `api`. -/
def BillManager.create (api : ApiService) : BillManager :=
  { apiService := api, bills := [], currentFilter := "All", currentSort := "default" }

/-- The plain object built from a `Bill` by `_saveBillsToLocalStorage`
before serialisation (all properties present). -/
def toPlain (bill : Bill) : PlainBill :=
  { id := some bill.id
    type := bill.type
    name := bill.name
    paymentMethod := bill.paymentMethod
    status := some bill.status
    amount := some bill.amount }

/-- `BillManager._saveBillsToLocalStorage`: maps the collection to plain
objects and hands the snapshot to `ApiService.saveBills`. -/
def saveToStorage (m : BillManager) : BillManager × Except String Unit :=
  let r := saveBills m.apiService (m.bills.map toPlain)
  ({ m with apiService := r.1 }, r.2)

/-- Rehydration of one plain record into a `Bill` inside
`_loadBillsFromLocalStorage`: a missing `amount` object is replaced by
value 0 and currency EUR before the `Bill` constructor runs. -/
def rehydrate (billData : PlainBill) (genId : String) : Bill :=
  Bill.make
    { id := billData.id
      type := billData.type
      name := billData.name
      paymentMethod := billData.paymentMethod
      status := billData.status
      amount :=
        match billData.amount with
        | some a => jsNumInput a.value
        | none => .valid 0
      currency :=
        match billData.amount with
        | some a => some a.currency
        | none => some "EUR" }
    genId

/-- Rehydrates a whole fetched snapshot; `genId i` is the id the `Bill`
constructor would generate for the record at index `i` (used only when the
stored id is falsy). -/
def rehydrateAll (genId : Nat → String) (i : Nat) : List PlainBill → List Bill
  | [] => []
  | billData :: rest => rehydrate billData (genId i) :: rehydrateAll genId (i + 1) rest

/-- `BillManager._loadBillsFromLocalStorage`: fetches the snapshot (an array,
hence always truthy) and rehydrates every record. -/
def loadFromStorage (m : BillManager) (genId : Nat → String) : List Bill :=
  rehydrateAll genId 0 (fetchBills m.apiService)

/-- `BillManager.initialize()`: replaces the in-memory collection with the
rehydrated snapshot. -/
def initManager (m : BillManager) (genId : Nat → String) : BillManager :=
  { m with bills := loadFromStorage m genId }

/-- `BillManager.addBill(newBill)`: pushes the bill, then persists. -/
def addBill (m : BillManager) (newBill : Bill) : BillManager × Except String Unit :=
  saveToStorage { m with bills := m.bills ++ [newBill] }

/-- `BillManager.deleteBill(id)`: keeps exactly the bills whose id differs,
then persists. -/
def deleteBill (m : BillManager) (id : String) : BillManager × Except String Unit :=
  saveToStorage { m with bills := m.bills.filter (fun bill => bill.id ≠ id) }

/-- The argument of `BillManager.updateBill` as the UI submits it: the target
id, the new raw amount (string fed to `parseFloat`), and the new status. -/
structure UpdateData where
  id : String
  amount : AmountInput
  status : String
deriving DecidableEq

/-- The per-bill function of the `map` inside `updateBill`: the matching bill
gets a new amount value `parseFloat(updatedData.amount)` (note: no `|| 0`
fallback here, unlike the constructor) and the new status; other bills are
returned unchanged. -/
def applyUpdate (updatedData : UpdateData) (bill : Bill) : Bill :=
  if bill.id = updatedData.id then
    { bill with
      amount := { bill.amount with value := parseFloat updatedData.amount }
      status := updatedData.status }
  else bill

/-- `BillManager.updateBill(updatedData)`: maps `applyUpdate` over the
collection, then persists. -/
def updateBill (m : BillManager) (updatedData : UpdateData) :
    BillManager × Except String Unit :=
  saveToStorage { m with bills := m.bills.map (applyUpdate updatedData) }

/-- `BillManager.setFilter(newFilter)`. -/
def setFilter (m : BillManager) (newFilter : String) : BillManager :=
  { m with currentFilter := newFilter }

/-- `BillManager.setSort(newSort)`. -/
def setSort (m : BillManager) (newSort : String) : BillManager :=
  { m with currentSort := newSort }

/-- `String.prototype.localeCompare`, modelled as locale-independent
lexicographic comparison (negative, zero or positive). -/
def localeCompare (a b : String) : JsNum :=
  if a < b then .num (-1) else if a = b then .num 0 else .num 1

/-- The comparator of the `switch` inside `getDisplayBills`, as a JS number
(subtraction of amounts can produce NaN when an amount is NaN). -/
def sortComparator (currentSort : String) (a b : Bill) : JsNum :=
  if currentSort = "amount-high-low" then
    jsSub b.amount.value a.amount.value
  else if currentSort = "amount-low-high" then
    jsSub a.amount.value b.amount.value
  else if currentSort = "name-az" then
    localeCompare (jsOrOptStr a.name a.type) (jsOrOptStr b.name b.type)
  else
    .num 0

/-- ECMA-262 SortCompare: a NaN comparator result is treated as +0; `a` may
be placed no later than `b` exactly when the comparator value is ≤ 0. -/
def sortLe (currentSort : String) (a b : Bill) : Bool :=
  match sortComparator currentSort a b with
  | .num q => decide (q ≤ 0)
  | .inf s => !s
  | .nan => true

/-- One step of a stable insertion: `a` is placed before the first element it
compares ≤ to, after every element that must stay ahead of it. -/
def stableInsert (le : α → α → Bool) (a : α) : List α → List α
  | [] => [a]
  | b :: l => if le a b then a :: b :: l else b :: stableInsert le a l

/-- Stable sort. `Array.prototype.sort` is required to be stable (ES2019);
for the consistent comparators of this program any stable sort computes the
same result, so insertion sort is a faithful model. -/
def stableSort (le : α → α → Bool) : List α → List α
  | [] => []
  | a :: l => stableInsert le a (stableSort le l)

/-- `BillManager.getDisplayBills()`: filter by `currentFilter` (All keeps the
collection as is), then sort a spread copy `[...filteredBills]` by
`currentSort`. The manager state itself is never the receiver of the
in-place sort, so the returned state is the input state. -/
def getDisplayBills (m : BillManager) : List Bill × BillManager :=
  let filteredBills :=
    if m.currentFilter = "All" then m.bills
    else m.bills.filter (fun bill => bill.status = m.currentFilter)
  let sortedAndFilteredBills := stableSort (sortLe m.currentSort) filteredBills
  (sortedAndFilteredBills, m)

/-- The accumulator of `getTotalsByStatus` (its own properties are exactly
the keys Paid, Unpaid, Pending). -/
structure Totals where
  Paid : JsNum
  Unpaid : JsNum
  Pending : JsNum
deriving DecidableEq

/-- The reduce step of `getTotalsByStatus`: `acc.hasOwnProperty(bill.status)`
holds exactly for the three enumerated keys; any other status leaves the
accumulator untouched. -/
def totalsStep (acc : Totals) (bill : Bill) : Totals :=
  if bill.status = "Paid" then
    { acc with Paid := jsAdd acc.Paid bill.amount.value }
  else if bill.status = "Unpaid" then
    { acc with Unpaid := jsAdd acc.Unpaid bill.amount.value }
  else if bill.status = "Pending" then
    { acc with Pending := jsAdd acc.Pending bill.amount.value }
  else
    acc

/-- `BillManager.getTotalsByStatus()`: left fold of `totalsStep` over the
collection, starting from zero totals. -/
def getTotalsByStatus (m : BillManager) : Totals :=
  m.bills.foldl totalsStep { Paid := .num 0, Unpaid := .num 0, Pending := .num 0 }

/-! Concrete fixtures used by witnesses and counterexamples. -/

/-- A fresh persistence medium with the failure flag clear. -/
def exApi : ApiService := { stored := none, shouldFail := false }

/-- A bill with the given id, status and finite amount (other fields fixed). -/
def mkBill (id status : String) (q : ℚ) : Bill :=
  { id := id
    type := "Energy"
    name := none
    paymentMethod := "Credit Card"
    status := status
    amount := { value := .num q, currency := "EUR" } }

/-- A manager holding the given bills, with default view state. -/
def mkManager (api : ApiService) (bills : List Bill) : BillManager :=
  { apiService := api, bills := bills, currentFilter := "All", currentSort := "default" }

/-! Theorems for the claims. -/

/-- C9: `getDisplayBills` leaves every component of the manager state — the
collection and its order, the current filter, the current sort, and the
persistence state — exactly as it was before the call. -/
theorem getDisplayBills_preserves_state (m : BillManager) :
    (getDisplayBills m).2.bills = m.bills ∧
    (getDisplayBills m).2.currentFilter = m.currentFilter ∧
    (getDisplayBills m).2.currentSort = m.currentSort ∧
    (getDisplayBills m).2.apiService = m.apiService :=
  ⟨rfl, rfl, rfl, rfl⟩

/-- C7: with the forced-failure flag set, `saveBills` rejects with the
simulated network error and the previously persisted snapshot is unchanged. -/
theorem saveBills_forced_failure (api : ApiService) (records : List PlainBill)
    (h : api.shouldFail = true) :
    (saveBills api records).2 = Except.error "Simulated Network Error during save!" ∧
    (saveBills api records).1.stored = api.stored := by
  simp [saveBills, h]

/-- Witness for C7: a concrete service with a persisted snapshot and the flag
set via `toggleFailure`; the save rejects and the snapshot survives. -/
theorem saveBills_forced_failure_witness :
    (toggleFailure { exApi with stored := some [toPlain (mkBill "w7" "Paid" 3)] }
        (some true)).shouldFail = true ∧
    ((saveBills (toggleFailure { exApi with stored := some [toPlain (mkBill "w7" "Paid" 3)] }
        (some true)) []).2 = Except.error "Simulated Network Error during save!" ∧
      (saveBills (toggleFailure { exApi with stored := some [toPlain (mkBill "w7" "Paid" 3)] }
        (some true)) []).1.stored = some [toPlain (mkBill "w7" "Paid" 3)]) :=
  ⟨rfl, saveBills_forced_failure _ [] rfl⟩

/-- C6: with the forced-failure flag clear, `saveBills` succeeds and a
subsequent `fetchBills` returns exactly the snapshot that was saved. -/
theorem save_fetch_roundtrip (api : ApiService) (records : List PlainBill)
    (h : api.shouldFail = false) :
    (saveBills api records).2 = Except.ok () ∧
    fetchBills (saveBills api records).1 = records := by
  simp [saveBills, fetchBills, h]

/-- Witness for C6: saving a concrete one-record snapshot on a fresh service
and fetching it back returns the same snapshot. -/
theorem save_fetch_roundtrip_witness :
    exApi.shouldFail = false ∧
    ((saveBills exApi [toPlain (mkBill "w6" "Unpaid" 7)]).2 = Except.ok () ∧
      fetchBills (saveBills exApi [toPlain (mkBill "w6" "Unpaid" 7)]).1 =
        [toPlain (mkBill "w6" "Unpaid" 7)]) :=
  ⟨rfl, save_fetch_roundtrip exApi [toPlain (mkBill "w6" "Unpaid" 7)] rfl⟩

/-- C2: when `Store.saveAll` fails, `addBill` surfaces the persistence error
to the caller, the in-memory collection still ends with the appended record
(no rollback), and the persisted snapshot is untouched (no retry succeeded). -/
theorem addBill_persistence_failure (m : BillManager) (newBill : Bill)
    (h : m.apiService.shouldFail = true) :
    (addBill m newBill).2 = Except.error "Simulated Network Error during save!" ∧
    (addBill m newBill).1.bills = m.bills ++ [newBill] ∧
    (addBill m newBill).1.apiService = m.apiService := by
  simp [addBill, saveToStorage, saveBills, h]

/-- Witness for C2: adding a concrete bill while the service is in forced
failure mode rejects, yet the bill is appended and the store is unchanged. -/
theorem addBill_persistence_failure_witness :
    (mkManager { exApi with shouldFail := true } [mkBill "w2a" "Paid" 1]).apiService.shouldFail
        = true ∧
    ((addBill (mkManager { exApi with shouldFail := true } [mkBill "w2a" "Paid" 1])
        (mkBill "w2b" "Pending" 2)).2 =
          Except.error "Simulated Network Error during save!" ∧
      (addBill (mkManager { exApi with shouldFail := true } [mkBill "w2a" "Paid" 1])
        (mkBill "w2b" "Pending" 2)).1.bills =
          [mkBill "w2a" "Paid" 1] ++ [mkBill "w2b" "Pending" 2] ∧
      (addBill (mkManager { exApi with shouldFail := true } [mkBill "w2a" "Paid" 1])
        (mkBill "w2b" "Pending" 2)).1.apiService = { exApi with shouldFail := true }) :=
  ⟨rfl, addBill_persistence_failure _ _ rfl⟩

/-- C3: `updateBill` keeps the collection in positional correspondence with
its pre-update value; the record matching the patched id keeps its id,
category, display name, payment method and currency and gets the parsed
amount and the new status; every non-matching record is unchanged. -/
theorem updateBill_frame (m : BillManager) (ud : UpdateData) :
    List.Forall₂ (fun old new =>
      new.id = old.id ∧ new.type = old.type ∧ new.name = old.name ∧
      new.paymentMethod = old.paymentMethod ∧
      new.amount.currency = old.amount.currency ∧
      (old.id ≠ ud.id → new = old) ∧
      (old.id = ud.id →
        new.amount.value = parseFloat ud.amount ∧ new.status = ud.status))
      m.bills (updateBill m ud).1.bills := by
  have hb : (updateBill m ud).1.bills = m.bills.map (applyUpdate ud) := rfl
  rw [hb, List.forall₂_map_right_iff, List.forall₂_same]
  intro b _
  by_cases h : b.id = ud.id
  · simp [applyUpdate, h]
  · simp [applyUpdate, h]

/-- C1, counterexample: updating the amount of an existing bill with
non-numeric input stores `parseFloat`'s NaN (there is no `|| 0` fallback in
`updateBill`), so the resulting `amount.value` is neither 0 nor finite; and
already at construction an amount parsing to Infinity (such as the strings
"Infinity" or "1e999") is truthy, survives `parseFloat(amount) || 0`, and
is stored non-finite. -/
theorem updateBill_nan_cex :
    ((updateBill (mkManager exApi [mkBill "c1" "Pending" 10])
        { id := "c1", amount := .invalid, status := "Paid" }).1.bills.map
      (fun b => b.amount.value)) = [JsNum.nan] ∧
    JsNum.nan ≠ JsNum.num 0 ∧ JsNum.nan.isFinite = false ∧
    (Bill.make
        { id := some "c2", type := "Energy", name := none,
          paymentMethod := "Cash", amount := .infinite true,
          currency := none, status := none } "g").amount.value
      = JsNum.inf true ∧
    (JsNum.inf true).isFinite = false := by
  exact ⟨rfl, by decide, rfl, rfl, rfl⟩

/-- C1, amended: `amount.value` is not always finite. At construction (and
hence at create and at rehydration during initialize) it is
`parseFloat(amount) || 0`: a NaN parse is coerced to 0 and a finite parse is
stored as that finite value, but an infinite parse (inputs such as
"Infinity" or "1e999") is truthy, survives `|| 0`, and is stored as a
non-finite infinity; and `updateBill` stores `parseFloat` of the patch
amount with no coercion at all, so an invalid update amount yields NaN. -/
theorem amount_invariant_amended :
    (∀ (inp : BillInput) (genId : String),
      (Bill.make inp genId).amount.value = jsOrZero (parseFloat inp.amount)) ∧
    (∀ (inp : BillInput) (genId : String), inp.amount = AmountInput.invalid →
      (Bill.make inp genId).amount.value = JsNum.num 0) ∧
    (∀ (inp : BillInput) (genId : String) (q : ℚ),
      inp.amount = AmountInput.valid q →
      (Bill.make inp genId).amount.value = JsNum.num q ∧
        ((Bill.make inp genId).amount.value).isFinite = true) ∧
    (∀ (inp : BillInput) (genId : String) (sign : Bool),
      inp.amount = AmountInput.infinite sign →
      (Bill.make inp genId).amount.value = JsNum.inf sign ∧
        ((Bill.make inp genId).amount.value).isFinite = false) ∧
    (∀ (ud : UpdateData) (bill : Bill), bill.id = ud.id →
      (applyUpdate ud bill).amount.value = parseFloat ud.amount) := by
  refine ⟨?_, ?_, ?_, ?_, ?_⟩
  · intro inp genId
    rfl
  · intro inp genId h
    simp [Bill.make, parseFloat, jsOrZero, h]
  · intro inp genId q h
    simp [Bill.make, parseFloat, jsOrZero, JsNum.isFinite, h]
  · intro inp genId sign h
    simp [Bill.make, parseFloat, jsOrZero, JsNum.isFinite, h]
  · intro ud bill h
    simp [applyUpdate, h]

/-! Helper lemmas about `jsAdd` and the totals fold. -/

theorem jsAdd_assoc (a b c : JsNum) : jsAdd (jsAdd a b) c = jsAdd a (jsAdd b c) := by
  rcases a with qa | sa | - <;> rcases b with qb | sb | - <;> rcases c with qc | sc | - <;>
    (try cases sa) <;> (try cases sb) <;> (try cases sc) <;>
    first
    | rfl
    | simp [jsAdd, add_assoc]

theorem jsAdd_zero_left (a : JsNum) : jsAdd (.num 0) a = a := by
  cases a <;> simp [jsAdd]

theorem jsAdd_zero_right (a : JsNum) : jsAdd a (.num 0) = a := by
  cases a <;> simp [jsAdd]

/-- Specification-side total: the sum of `amount.value` over the records
whose status is the given one, in collection order. -/
def statusSum (st : String) (bills : List Bill) : JsNum :=
  (bills.filter (fun b => b.status = st)).foldr
    (fun b acc => jsAdd b.amount.value acc) (.num 0)

theorem statusSum_cons (st : String) (b : Bill) (l : List Bill) :
    statusSum st (b :: l) =
      if b.status = st then jsAdd b.amount.value (statusSum st l)
      else statusSum st l := by
  by_cases h : b.status = st <;> simp [statusSum, List.filter_cons, h]

theorem foldl_totalsStep (l : List Bill) (acc : Totals) :
    l.foldl totalsStep acc =
      { Paid := jsAdd acc.Paid (statusSum "Paid" l)
        Unpaid := jsAdd acc.Unpaid (statusSum "Unpaid" l)
        Pending := jsAdd acc.Pending (statusSum "Pending" l) } := by
  induction l generalizing acc with
  | nil => simp [statusSum, jsAdd_zero_right]
  | cons b l ih =>
    rw [List.foldl_cons, ih]
    by_cases h1 : b.status = "Paid"
    · simp [totalsStep, statusSum_cons, h1, jsAdd_assoc]
    · by_cases h2 : b.status = "Unpaid"
      · simp [totalsStep, statusSum_cons, h1, h2, jsAdd_assoc]
      · by_cases h3 : b.status = "Pending"
        · simp [totalsStep, statusSum_cons, h1, h2, h3, jsAdd_assoc]
        · simp [totalsStep, statusSum_cons, h1, h2, h3]

/-- C5: `getTotalsByStatus` maps each of Paid, Unpaid and Pending to the sum
of `amount.value` over the records with that status (so a record with any
other status contributes to no bucket), and on the enumerated five-bill
example it yields Paid 25, Unpaid 45, Pending 5. -/
theorem getTotalsByStatus_spec :
    (∀ m : BillManager,
      getTotalsByStatus m =
        { Paid := statusSum "Paid" m.bills
          Unpaid := statusSum "Unpaid" m.bills
          Pending := statusSum "Pending" m.bills }) ∧
    getTotalsByStatus (mkManager exApi
        [mkBill "t1" "Paid" 10, mkBill "t2" "Unpaid" 20, mkBill "t3" "Pending" 5,
         mkBill "t4" "Paid" 15, mkBill "t5" "Unpaid" 25]) =
      { Paid := .num 25, Unpaid := .num 45, Pending := .num 5 } := by
  constructor
  · intro m
    rw [getTotalsByStatus, foldl_totalsStep]
    simp [jsAdd_zero_left]
  · simp +decide only [getTotalsByStatus, mkManager, mkBill, exApi, List.foldl_cons,
      List.foldl_nil, totalsStep, jsAdd]
    norm_num

/-- Removal of the first record with the given id, as the spec words it. -/
def removeFirstById (id : String) : List Bill → List Bill
  | [] => []
  | b :: l => if b.id = id then l else b :: removeFirstById id l

theorem filter_ne_eq_removeFirst (id : String) (l : List Bill)
    (h : (l.map Bill.id).Nodup) :
    l.filter (fun bill => bill.id ≠ id) = removeFirstById id l := by
  induction l with
  | nil => rfl
  | cons b l ih =>
    rw [List.map_cons, List.nodup_cons] at h
    obtain ⟨hbn, hnd⟩ := h
    by_cases hb : b.id = id
    · have hr : removeFirstById id (b :: l) = l := by
        simp [removeFirstById, hb]
      rw [hr, List.filter_cons, if_neg (by simp [hb])]
      refine List.filter_eq_self.mpr ?_
      intro a ha
      simp only [ne_eq, decide_eq_true_eq]
      intro hc
      exact hbn (List.mem_map.mpr ⟨a, ha, by rw [hc, hb]⟩)
    · have hr : removeFirstById id (b :: l) = b :: removeFirstById id l := by
        simp [removeFirstById, hb]
      rw [hr, List.filter_cons, if_pos (by simp [hb]), ih hnd]

theorem find_matching_after_filter (id : String) (l : List Bill) :
    (l.filter (fun bill => bill.id ≠ id)).find? (fun bill => bill.id = id) = none := by
  rw [List.find?_eq_none]
  intro x hx
  rw [List.mem_filter] at hx
  simpa using hx.2

/-- C4: on a collection whose ids are unique (the id invariant of the data
model), `deleteBill id` removes exactly the first record whose id matches —
in particular it is a no-op when no record has that id — and a subsequent
lookup of that id in the collection finds nothing. -/
theorem deleteBill_removes_first (m : BillManager) (id : String)
    (h : (m.bills.map Bill.id).Nodup) :
    (deleteBill m id).1.bills = removeFirstById id m.bills ∧
    (deleteBill m id).1.bills.find? (fun bill => bill.id = id) = none := by
  have hb : (deleteBill m id).1.bills = m.bills.filter (fun bill => bill.id ≠ id) := rfl
  rw [hb]
  exact ⟨filter_ne_eq_removeFirst id m.bills h, find_matching_after_filter id m.bills⟩

/-- Witness for C4: deleting id d1 from a concrete two-bill collection with
distinct ids leaves exactly the other bill, and looking d1 up afterwards
yields none. -/
theorem deleteBill_removes_first_witness :
    (((mkManager exApi [mkBill "d1" "Paid" 1, mkBill "d2" "Unpaid" 2]).bills.map
        Bill.id).Nodup) ∧
    ((deleteBill (mkManager exApi [mkBill "d1" "Paid" 1, mkBill "d2" "Unpaid" 2])
        "d1").1.bills =
      removeFirstById "d1"
        (mkManager exApi [mkBill "d1" "Paid" 1, mkBill "d2" "Unpaid" 2]).bills ∧
      (deleteBill (mkManager exApi [mkBill "d1" "Paid" 1, mkBill "d2" "Unpaid" 2])
        "d1").1.bills.find? (fun bill => bill.id = "d1") = none) :=
  ⟨by decide, deleteBill_removes_first _ "d1" (by decide)⟩

/-! Helper lemmas about rehydration of a fetched snapshot. -/

theorem rehydrateAll_length (genId : Nat → String) (i : Nat) (l : List PlainBill) :
    (rehydrateAll genId i l).length = l.length := by
  induction l generalizing i with
  | nil => rfl
  | cons billData rest ih => simp [rehydrateAll, ih]

theorem rehydrateAll_getElem? (genId : Nat → String) (i j : Nat) (l : List PlainBill) :
    (rehydrateAll genId i l)[j]? =
      (l[j]?).map (fun billData => rehydrate billData (genId (i + j))) := by
  induction l generalizing i j with
  | nil => simp [rehydrateAll]
  | cons billData rest ih =>
    cases j with
    | zero => simp [rehydrateAll]
    | succ j =>
      have harith : i + 1 + j = i + (j + 1) := by omega
      simp [rehydrateAll, ih, harith]

/-- C10: when the persisted snapshot holds a plain record whose amount
property is absent, `initialize` still succeeds: it replaces the collection
with the rehydrated snapshot (same length, positionwise rehydration), and
the rehydrated record carries amount value 0 and currency EUR. -/
theorem initManager_missing_amount (m : BillManager) (genId : Nat → String)
    (ps : List PlainBill) (billData : PlainBill) (i : Nat)
    (h1 : m.apiService.stored = some ps)
    (h2 : ps[i]? = some billData)
    (h3 : billData.amount = none) :
    (initManager m genId).bills = rehydrateAll genId 0 ps ∧
    (initManager m genId).bills.length = ps.length ∧
    ((initManager m genId).bills)[i]? = some (rehydrate billData (genId i)) ∧
    (rehydrate billData (genId i)).amount =
      { value := JsNum.num 0, currency := "EUR" } := by
  have hb : (initManager m genId).bills = rehydrateAll genId 0 ps := by
    simp [initManager, loadFromStorage, fetchBills, h1]
  refine ⟨hb, ?_, ?_, ?_⟩
  · rw [hb, rehydrateAll_length]
  · rw [hb, rehydrateAll_getElem?, h2]
    simp
  · simp +decide [rehydrate, Bill.make, h3, jsOrZero, parseFloat, jsOrOptStr, jsOrStr]

/-- A plain persisted record with no amount property. -/
def exPlain : PlainBill :=
  { id := some "p1", type := "Energy", name := none, paymentMethod := "Cash",
    status := some "Paid", amount := none }

/-- Witness for C10: initialising from a snapshot containing one record with
no amount yields a collection whose record has amount value 0 and currency
EUR. -/
theorem initManager_missing_amount_witness :
    (mkManager { stored := some [exPlain], shouldFail := false } []).apiService.stored
        = some [exPlain] ∧
    ([exPlain][0]? = some exPlain) ∧
    exPlain.amount = none ∧
    ((initManager (mkManager { stored := some [exPlain], shouldFail := false } [])
        (fun _ => "gen0")).bills = rehydrateAll (fun _ => "gen0") 0 [exPlain] ∧
      (initManager (mkManager { stored := some [exPlain], shouldFail := false } [])
        (fun _ => "gen0")).bills.length = ([exPlain] : List PlainBill).length ∧
      ((initManager (mkManager { stored := some [exPlain], shouldFail := false } [])
        (fun _ => "gen0")).bills)[0]? = some (rehydrate exPlain "gen0") ∧
      (rehydrate exPlain "gen0").amount =
        { value := JsNum.num 0, currency := "EUR" }) :=
  ⟨rfl, rfl, rfl,
    initManager_missing_amount _ (fun _ => "gen0") [exPlain] exPlain 0 rfl rfl rfl⟩

/-! Stability of the modelled sort: filtering the sorted list down to the
records of one amount value gives them back in their input order. -/

theorem filter_stableInsert_pos {α : Type} (le : α → α → Bool) (p : α → Bool)
    (a : α) (l : List α) (hpa : p a = true)
    (hle : ∀ b, p b = true → le a b = true) :
    (stableInsert le a l).filter p = a :: l.filter p := by
  induction l with
  | nil => simp [stableInsert, hpa]
  | cons b l ih =>
    by_cases h : le a b = true
    · simp [stableInsert, h, List.filter_cons, hpa]
    · have hpb : p b = false := by
        cases hpb : p b
        · rfl
        · exact absurd (hle b hpb) h
      simp [stableInsert, h, List.filter_cons, hpb, ih]

theorem filter_stableInsert_neg {α : Type} (le : α → α → Bool) (p : α → Bool)
    (a : α) (l : List α) (hpa : p a = false) :
    (stableInsert le a l).filter p = l.filter p := by
  induction l with
  | nil => simp [stableInsert, hpa]
  | cons b l ih =>
    by_cases h : le a b = true
    · simp [stableInsert, h, List.filter_cons, hpa]
    · simp [stableInsert, h, List.filter_cons, ih]

theorem filter_stableSort {α : Type} (le : α → α → Bool) (p : α → Bool) (l : List α)
    (hle : ∀ a b, p a = true → p b = true → le a b = true) :
    (stableSort le l).filter p = l.filter p := by
  induction l with
  | nil => rfl
  | cons a l ih =>
    have hu : stableSort le (a :: l) = stableInsert le a (stableSort le l) := rfl
    cases hpa : p a
    · rw [hu, filter_stableInsert_neg le p a _ hpa, ih, List.filter_cons]
      simp [hpa]
    · rw [hu, filter_stableInsert_pos le p a _ hpa (fun b hb => hle a b hpa hb), ih,
        List.filter_cons]
      simp [hpa]

theorem sortLe_of_eq_value (s : String)
    (hs : s = "amount-low-high" ∨ s = "amount-high-low")
    (a b : Bill) (v : JsNum)
    (ha : a.amount.value = v) (hb : b.amount.value = v) :
    sortLe s a b = true := by
  rcases hs with hs | hs <;> subst hs <;> cases v <;>
    simp +decide [sortLe, sortComparator, jsSub, ha, hb, sub_self]

/-- Four bills with amounts 10, 5, 20, 5 in input order (the two amount-5
bills are distinguishable by id to observe tie order). -/
def sortBills : List Bill :=
  [mkBill "s1" "Pending" 10, mkBill "s2" "Pending" 5,
   mkBill "s3" "Pending" 20, mkBill "s4" "Pending" 5]

/-- C8: sorting amounts [10, 5, 20, 5] through `getDisplayBills` ascending
gives [5, 5, 10, 20] and descending gives [20, 10, 5, 5], with the two tied
amount-5 records keeping their input order (s2 before s4) in both
directions; in general, under an amount sort the records of any one amount
value appear in the display list in their collection order. -/
theorem sort_by_amount (m : BillManager) (v : JsNum)
    (hf : m.currentFilter = "All")
    (hs : m.currentSort = "amount-low-high" ∨ m.currentSort = "amount-high-low") :
    ((getDisplayBills (setSort (mkManager exApi sortBills) "amount-low-high")).1.map
        (fun b => b.amount.value) = [.num 5, .num 5, .num 10, .num 20] ∧
      (getDisplayBills (setSort (mkManager exApi sortBills) "amount-low-high")).1.map
        Bill.id = ["s2", "s4", "s1", "s3"]) ∧
    ((getDisplayBills (setSort (mkManager exApi sortBills) "amount-high-low")).1.map
        (fun b => b.amount.value) = [.num 20, .num 10, .num 5, .num 5] ∧
      (getDisplayBills (setSort (mkManager exApi sortBills) "amount-high-low")).1.map
        Bill.id = ["s3", "s1", "s2", "s4"]) ∧
    (getDisplayBills m).1.filter (fun b => b.amount.value = v) =
      m.bills.filter (fun b => b.amount.value = v) := by
  refine ⟨⟨?_, ?_⟩, ⟨?_, ?_⟩, ?_⟩
  · norm_num +decide [getDisplayBills, setSort, mkManager, mkBill, sortBills, exApi,
      stableSort, stableInsert, sortLe, sortComparator, jsSub]
  · norm_num +decide [getDisplayBills, setSort, mkManager, mkBill, sortBills, exApi,
      stableSort, stableInsert, sortLe, sortComparator, jsSub]
  · norm_num +decide [getDisplayBills, setSort, mkManager, mkBill, sortBills, exApi,
      stableSort, stableInsert, sortLe, sortComparator, jsSub]
  · norm_num +decide [getDisplayBills, setSort, mkManager, mkBill, sortBills, exApi,
      stableSort, stableInsert, sortLe, sortComparator, jsSub]
  · have hd : (getDisplayBills m).1 = stableSort (sortLe m.currentSort) m.bills := by
      simp [getDisplayBills, hf]
    rw [hd]
    refine filter_stableSort _ _ _ ?_
    intro a b hpa hpb
    exact sortLe_of_eq_value m.currentSort hs a b v
      (by simpa using hpa) (by simpa using hpb)

/-- Witness for C8: the bundled claim instantiated at the ascending manager
and the tied amount value 5 (filter All, sort amount-low-high). -/
theorem sort_by_amount_witness :
    (setSort (mkManager exApi sortBills) "amount-low-high").currentFilter = "All" ∧
    ((setSort (mkManager exApi sortBills) "amount-low-high").currentSort
        = "amount-low-high" ∨
      (setSort (mkManager exApi sortBills) "amount-low-high").currentSort
        = "amount-high-low") ∧
    (((getDisplayBills (setSort (mkManager exApi sortBills) "amount-low-high")).1.map
        (fun b => b.amount.value) = [.num 5, .num 5, .num 10, .num 20] ∧
      (getDisplayBills (setSort (mkManager exApi sortBills) "amount-low-high")).1.map
        Bill.id = ["s2", "s4", "s1", "s3"]) ∧
    ((getDisplayBills (setSort (mkManager exApi sortBills) "amount-high-low")).1.map
        (fun b => b.amount.value) = [.num 20, .num 10, .num 5, .num 5] ∧
      (getDisplayBills (setSort (mkManager exApi sortBills) "amount-high-low")).1.map
        Bill.id = ["s3", "s1", "s2", "s4"]) ∧
    (getDisplayBills (setSort (mkManager exApi sortBills) "amount-low-high")).1.filter
        (fun b => b.amount.value = JsNum.num 5) =
      (setSort (mkManager exApi sortBills) "amount-low-high").bills.filter
        (fun b => b.amount.value = JsNum.num 5)) :=
  ⟨rfl, Or.inl rfl,
    sort_by_amount (setSort (mkManager exApi sortBills) "amount-low-high")
      (JsNum.num 5) rfl (Or.inl rfl)⟩

end BillCalc

